import Mathlib

/-!
Verification of the parallel document-conversion pipeline
(`scripts/markthesedown.py`): a shallow embedding of its data model,
path handling, worker logic and pipeline phases, with theorems settling
the behavioural claims about it.

Modelling conventions:
* Python strings are `String`, handled through their `List Char` data so
  every definition evaluates by kernel reduction.
* File modification times are `Nat` (integer seconds since the epoch, as
  stored in tar headers).
* The external conversion capability (MarkItDown plus the optional LLM
  client) is opaque: its behaviour on one task is a `ConvBehavior` value,
  either returned text (a conversion result whose `text_content` is `None`
  takes the same control path as empty text), a raised exception carrying
  a type name and a message, or exceeding the 180 second alarm.
* A `ConvertSuccess` in the script stores the scratch path of the file
  whose bytes are exactly the UTF-8 encoding of the extracted text; the
  embedding stores the text itself in the `success` variant, and models
  the scratch paths separately for the path-disjointness claims.
-/

/-! ## Python string primitives, embedded on `List Char` -/

/-- Python `str.split(sep)` with a one-character separator: splits on every
occurrence, keeping empty pieces, and yields one empty piece for the empty
string (auxiliary loop over the character data). -/
def splitCharsAux (cur : List Char) : List Char → List (List Char)
  | [] => [cur.reverse]
  | c :: rest =>
      if c = '/' then cur.reverse :: splitCharsAux [] rest
      else splitCharsAux (c :: cur) rest

/-- Python `name.split("/")`. -/
def splitSlash (s : String) : List String :=
  (splitCharsAux [] s.data).map (fun l => String.mk l)

/-- Python `"/".join(parts)`. -/
def joinSlash : List String → String
  | [] => ""
  | [x] => x
  | x :: rest => x ++ "/" ++ joinSlash rest

/-- Python `s.startswith(pre)`. -/
def startsWithStr (s pre : String) : Bool :=
  s.data.take pre.data.length = pre.data

/-- The characters for which CPython `str.isspace()` holds — exactly the
set `str.strip()` removes: the ASCII whitespace and separator controls
(U+0009 to U+000D, U+001C to U+001F, U+0020), U+0085, and the Unicode
space and line/paragraph separators U+00A0, U+1680, U+2000 to U+200A,
U+2028, U+2029, U+202F, U+205F and U+3000. -/
def pyIsSpace (c : Char) : Bool :=
  (0x9 ≤ c.toNat ∧ c.toNat ≤ 0xd) ∨
  (0x1c ≤ c.toNat ∧ c.toNat ≤ 0x20) ∨
  c.toNat = 0x85 ∨ c.toNat = 0xa0 ∨ c.toNat = 0x1680 ∨
  (0x2000 ≤ c.toNat ∧ c.toNat ≤ 0x200a) ∨
  c.toNat = 0x2028 ∨ c.toNat = 0x2029 ∨ c.toNat = 0x202f ∨
  c.toNat = 0x205f ∨ c.toNat = 0x3000

/-- Python `s.strip()`. -/
def pyStrip (s : String) : String :=
  String.mk (((s.data.dropWhile pyIsSpace).reverse.dropWhile pyIsSpace).reverse)

/-- Python `s.split("\n")[0]`: the characters before the first newline. -/
def firstLine (s : String) : String :=
  String.mk (s.data.takeWhile (fun c => c ≠ '\n'))

/-- Python `s[:200]`. -/
def truncate200 (s : String) : String :=
  String.mk (s.data.take 200)

/-- Python `s.lower()` (the script only lowercases ASCII extensions). -/
def lowerStr (s : String) : String :=
  String.mk (s.data.map Char.toLower)

/-! ## `os.path` operations used by the script (POSIX rules) -/

/-- `os.path.basename`: everything after the last slash, on character data. -/
def basenameData (l : List Char) : List Char :=
  (l.reverse.takeWhile (fun c => c ≠ '/')).reverse

/-- `os.path.basename`. -/
def basename (p : String) : String :=
  String.mk (basenameData p.data)

/-- `os.path.isabs`. -/
def isabs (p : String) : Bool :=
  startsWithStr p "/"

/-- `os.path.splitext`: splits off the extension of the final path
component; a dot run at the very start of the component (such as the
leading dot of `.DS_Store`) does not begin an extension. -/
def splitext (p : String) : String × String :=
  let d := p.data
  let revb := d.reverse.takeWhile (fun c => c ≠ '/')
  let pre := d.take (d.length - revb.length)
  let b := revb.reverse
  let afterDot := revb.takeWhile (fun c => c ≠ '.')
  if afterDot.length = revb.length then (p, "")
  else
    let stem := b.take (b.length - afterDot.length - 1)
    if stem.any (fun c => c ≠ '.') then
      (String.mk (pre ++ stem), String.mk (b.drop (b.length - afterDot.length - 1)))
    else (p, "")

/-- The component loop of `posixpath.normpath`: empty and `.` components
are dropped, `..` is kept when the path is relative and nothing can be
popped (or the previous component is itself `..`), otherwise it pops the
previous component; on an absolute path a leading `..` disappears. -/
def normLoop (hasRoot : Bool) : List String → List String → List String
  | acc, [] => acc
  | acc, comp :: rest =>
      if comp = "" ∨ comp = "." then normLoop hasRoot acc rest
      else if comp ≠ ".." ∨ (hasRoot = false ∧ acc = []) ∨ acc.getLast? = some ".." then
        normLoop hasRoot (acc ++ [comp]) rest
      else if acc = [] then normLoop hasRoot acc rest
      else normLoop hasRoot acc.dropLast rest

/-- `os.path.normpath` (POSIX): collapses `.`, empty and interior `..`
components, keeping one or two leading slashes of an absolute path. -/
def normpath (p : String) : String :=
  if p = "" then "." else
  let initialSlashes : Nat :=
    if startsWithStr p "/" then
      (if startsWithStr p "//" ∧ (startsWithStr p "///" = false) then 2 else 1)
    else 0
  let newComps := normLoop (initialSlashes ≠ 0) [] (splitSlash p)
  let res := String.mk (List.replicate initialSlashes '/') ++ joinSlash newComps
  if res = "" then "." else res

/-- `pathlib` suffix length of a final path component `name`: the length of
`name[i:]` where `i` is the last dot position, provided `0 < i < len - 1`;
otherwise the component has no suffix. -/
def pathlibSuffixLength (name : List Char) : Nat :=
  if (name.reverse.takeWhile (fun c => c ≠ '.')).length = name.length then 0
  else if (name.reverse.takeWhile (fun c => c ≠ '.')).length = 0 then 0
  else if (name.reverse.takeWhile (fun c => c ≠ '.')).length + 1 = name.length then 0
  else (name.reverse.takeWhile (fun c => c ≠ '.')).length + 1

/-- The path with the `pathlib` suffix of its final component removed. -/
def stripPathSuffix (p : String) : String :=
  String.mk (p.data.take (p.data.length - pathlibSuffixLength (basenameData p.data)))

/-- `pathlib.Path.with_suffix(".md.tmp")`, the worker's output path
derivation (`task.path.with_suffix(".md.tmp")`). -/
def with_suffix_md_tmp (p : String) : String :=
  stripPathSuffix p ++ ".md.tmp"

/-! ## Domain types and pure helpers of the script -/

/-- `FileTask`: scratch path, original archive name, modification time. -/
structure FileTask where
  path : String
  original_name : String
  mtime : Nat
deriving DecidableEq, Repr

/-- `ConvertResult = ConvertSuccess | ConvertSkipped | ConvertFailed`;
the `success` variant stores the extracted text itself (the script stores
the scratch path of a file holding exactly that text). -/
inductive ConvertResult where
  | success (original_name : String) (content : String) (mtime : Nat)
  | skipped (original_name : String) (reason : String)
  | failed (original_name : String) (error : String)
deriving DecidableEq, Repr

/-- The `original_name` field shared by the three variants. -/
def ConvertResult.original_name : ConvertResult → String
  | .success n _ _ => n
  | .skipped n _ => n
  | .failed n _ => n

def JUNK_PATTERNS : List String := [".DS_Store"]

def JUNK_PREFIXES : List String := ["._"]

def SKIP_EXTENSIONS : List String := [".mov", ".mp4", ".mp3", ".wav", ".m4a"]

/-- `is_valid_member`, exactly the five checks of the script. -/
def is_valid_member (name : String) : Bool :=
  let base := basename name
  let ext := (splitext base).2
  (!(JUNK_PREFIXES.any (fun pre => startsWithStr base pre))) &&
  (!(JUNK_PATTERNS.contains base)) &&
  (!(SKIP_EXTENSIONS.contains (lowerStr ext))) &&
  (!(startsWithStr name "..")) &&
  (!(isabs name))

/-- `md_output_name`. -/
def md_output_name (original : String) : String :=
  (splitext original).1 ++ ".md"

/-! ## The conversion worker -/

/-- One behaviour of the opaque conversion capability on one task. In
`raisesExc` the flag `isTimeoutError` records whether the raised exception
is an instance of the builtin `TimeoutError` (such as `socket.timeout`,
which the network-backed enrichment call can raise and which is that very
class): exception handlers in Python select on the class, not on the
name, and `except TimeoutError` precedes `except Exception` in the
worker. -/
inductive ConvBehavior where
  | returnsText (text : String)
  | raisesExc (isTimeoutError : Bool) (ename emsg : String)
  | timesOut
deriving DecidableEq, Repr

/-- The exceptions that can leave the body of `convert_task_isolated`:
a `TimeoutError` (raised by the alarm handler or by the capability
itself), or any other exception (with its type name and message). -/
inductive PyExc where
  | timeoutError
  | exception (ename emsg : String)
deriving DecidableEq, Repr

/-- The error string built by the final handler:
`msg = str(e).split("\n")[0][:200]` then `f"{type(e).__name__}: {msg}"`. -/
def excErrorMsg (ename emsg : String) : String :=
  ename ++ ": " ++ truncate200 (firstLine emsg)

/-- The body of `convert_task_isolated` inside the alarm window: convert,
then either write the non-blank text and succeed, or skip; a capability
exception or the 180 second alarm escapes as a `PyExc` — a capability
exception that is itself an instance of `TimeoutError` escapes as the
`timeoutError` case, since `except TimeoutError` will catch it. -/
def convert_body (task : FileTask) : ConvBehavior → Except PyExc ConvertResult
  | .timesOut => Except.error PyExc.timeoutError
  | .raisesExc true _ _ => Except.error PyExc.timeoutError
  | .raisesExc false en em => Except.error (PyExc.exception en em)
  | .returnsText text =>
      if text ≠ "" ∧ pyStrip text ≠ "" then
        Except.ok (ConvertResult.success task.original_name text task.mtime)
      else
        Except.ok (ConvertResult.skipped task.original_name "No convertible text content")

/-- `convert_task_isolated`: the body wrapped in the two handlers
`except TimeoutError` and `except Exception`. -/
def convert_task_isolated (task : FileTask) (b : ConvBehavior) : ConvertResult :=
  match convert_body task b with
  | Except.ok r => r
  | Except.error PyExc.timeoutError =>
      ConvertResult.failed task.original_name "Timeout (180s)"
  | Except.error (PyExc.exception en em) =>
      ConvertResult.failed task.original_name (excErrorMsg en em)

/-! ## Pipeline phases -/

/-- Destination of one extracted entry:
`dest_path = work_dir / os.path.normpath(member.name)`. -/
def task_input_path (work name : String) : String :=
  work ++ "/" ++ normpath name

/-- Scratch path the worker writes for one task:
`task.path.with_suffix(".md.tmp")`. -/
def task_output_path (work name : String) : String :=
  with_suffix_md_tmp (task_input_path work name)

/-- CPython string comparison, at-most: lexicographic by code point, a
proper prefix ordered before its extensions. -/
def lexLeChars : List Char → List Char → Bool
  | [], _ => true
  | _ :: _, [] => false
  | a :: as, b :: bs =>
      if a.toNat < b.toNat then true
      else if b.toNat < a.toNat then false
      else lexLeChars as bs

/-- Ordering key of `results.sort(key=lambda r: r.original_name)`:
Python compares the string keys lexicographically by code point. -/
def leName (a b : ConvertResult) : Prop :=
  lexLeChars a.original_name.data b.original_name.data = true

instance : DecidableRel leName :=
  fun a b =>
    inferInstanceAs (Decidable (lexLeChars a.original_name.data b.original_name.data = true))

theorem lexLeChars_total (x y : List Char) :
    lexLeChars x y = true ∨ lexLeChars y x = true := by
  induction x generalizing y with
  | nil => exact Or.inl rfl
  | cons a as ih =>
      cases y with
      | nil => exact Or.inr rfl
      | cons b bs =>
          by_cases hab : a.toNat < b.toNat
          · exact Or.inl (by simp [lexLeChars, hab])
          by_cases hba : b.toNat < a.toNat
          · exact Or.inr (by simp [lexLeChars, hba])
          · rcases ih bs with h | h
            · exact Or.inl (by simp [lexLeChars, hab, hba, h])
            · exact Or.inr (by simp [lexLeChars, hab, hba, h])

theorem lexLeChars_trans {x y z : List Char}
    (h1 : lexLeChars x y = true) (h2 : lexLeChars y z = true) :
    lexLeChars x z = true := by
  induction x generalizing y z with
  | nil => rfl
  | cons a as ih =>
      cases y with
      | nil => simp [lexLeChars] at h1
      | cons b bs =>
          cases z with
          | nil => simp [lexLeChars] at h2
          | cons c cs =>
              rw [lexLeChars] at h1 h2 ⊢
              by_cases hac : a.toNat < c.toNat
              · simp [hac]
              by_cases hca : c.toNat < a.toNat
              · exfalso
                by_cases hab : a.toNat < b.toNat <;> by_cases hba : b.toNat < a.toNat <;>
                  by_cases hbc : b.toNat < c.toNat <;> by_cases hcb : c.toNat < b.toNat <;>
                    simp [hab, hba, hbc, hcb] at h1 h2 <;> omega
              · simp only [if_neg hac, if_neg hca]
                by_cases hab : a.toNat < b.toNat <;> by_cases hba : b.toNat < a.toNat <;>
                  by_cases hbc : b.toNat < c.toNat <;> by_cases hcb : c.toNat < b.toNat <;>
                    simp [hab, hba, hbc, hcb] at h1 h2 <;>
                      first
                        | omega
                        | exact ih h1 h2

theorem lexLeChars_antisymm {x y : List Char}
    (h1 : lexLeChars x y = true) (h2 : lexLeChars y x = true) : x = y := by
  induction x generalizing y with
  | nil =>
      cases y with
      | nil => rfl
      | cons b bs => simp [lexLeChars] at h2
  | cons a as ih =>
      cases y with
      | nil => simp [lexLeChars] at h1
      | cons b bs =>
          rw [lexLeChars] at h1 h2
          by_cases hab : a.toNat < b.toNat <;> by_cases hba : b.toNat < a.toNat <;>
            simp [hab, hba] at h1 h2
          · omega
          · have hn : a.toNat = b.toNat := by omega
            have hc : a = b := Char.eq_of_val_eq (UInt32.ext hn)
            rw [hc, ih h1 h2]

instance : IsTotal ConvertResult leName :=
  ⟨fun a b => lexLeChars_total a.original_name.data b.original_name.data⟩

instance : IsTrans ConvertResult leName :=
  ⟨fun _ _ _ h1 h2 => lexLeChars_trans h1 h2⟩

/-- Python `list.sort(key=...)` is a stable ascending sort; insertion sort
with the same key ordering is the stable ascending sort of the same list. -/
def sortResults (l : List ConvertResult) : List ConvertResult :=
  List.insertionSort leName l

/-- Observable behaviour of one pool slot, as the coordinating process
sees it while consuming the joblib result generator: either the worker
function returned a value, or the worker process terminated abnormally and
the backend raises out of the generator. -/
inductive WorkerBehavior where
  | value (r : ConvertResult)
  | terminatedAbnormally
deriving DecidableEq, Repr

/-- The result-consumption loop of `phase_transform`: results are appended
in generator order until the generator is exhausted or raises; the raise is
caught by the surrounding `except`, keeping the partial list. -/
def runGenerator : List WorkerBehavior → List ConvertResult
  | [] => []
  | WorkerBehavior.value r :: rest => r :: runGenerator rest
  | WorkerBehavior.terminatedAbnormally :: _ => []

/-- `phase_transform`: consume the generator (possibly partially, if the
backend raises) and sort the collected results by `original_name`. -/
def phase_transform (behaviors : List WorkerBehavior) : List ConvertResult :=
  sortResults (runGenerator behaviors)

/-- `phase_transform` over tasks whose worker function runs to completion,
each worker being `convert_task_isolated` under its capability behaviour. -/
def phase_transform_conv (tbs : List (FileTask × ConvBehavior)) : List ConvertResult :=
  phase_transform (tbs.map (fun tb => WorkerBehavior.value (convert_task_isolated tb.1 tb.2)))

/-- One entry of the outbound archive. -/
structure OutEntry where
  name : String
  content : String
  mtime : Nat
deriving DecidableEq, Repr

/-- The archive-building loop of `phase_emit`: one entry per
`ConvertSuccess`, named `md_output_name(original_name)` with the original
modification time; `ConvertSkipped` and `ConvertFailed` only produce a
diagnostic line on the side channel. -/
def phase_emit : List ConvertResult → List OutEntry
  | [] => []
  | ConvertResult.success n c m :: rest =>
      { name := md_output_name n, content := c, mtime := m } :: phase_emit rest
  | ConvertResult.skipped _ _ :: rest => phase_emit rest
  | ConvertResult.failed _ _ :: rest => phase_emit rest

/-- The exceptions `main` distinguishes around `run_pipeline`. -/
inductive PipelineError where
  | brokenPipe
  | keyboardInterrupt
  | otherError (msg : String)
deriving DecidableEq, Repr

/-- `run_pipeline` over a task list with capability behaviours: every
per-task failure is captured inside `convert_task_isolated`, every phase
is a total function, so the pipeline completes normally. -/
def run_pipeline (tbs : List (FileTask × ConvBehavior)) : Except PipelineError (List OutEntry) :=
  Except.ok (phase_emit (phase_transform_conv tbs))

/-- The exit code computed by the handlers of `main`: 0 on normal
completion, 0 on `BrokenPipeError`, 130 on `KeyboardInterrupt`, 1 on any
other exception. -/
def main_exit : Except PipelineError (List OutEntry) → Nat
  | Except.ok _ => 0
  | Except.error PipelineError.brokenPipe => 0
  | Except.error PipelineError.keyboardInterrupt => 130
  | Except.error (PipelineError.otherError _) => 1

/-- The two possible dispositions of SIGPIPE for the process: the default
signal action, or the Python default of translating EPIPE writes into a
`BrokenPipeError` exception. -/
inductive SigpipeDisposition where
  | sigDfl
  | pythonDefault
deriving DecidableEq, Repr

/-- The first statement of `main` is
`signal.signal(signal.SIGPIPE, signal.SIG_DFL)`. -/
def sigpipe_disposition : SigpipeDisposition := SigpipeDisposition.sigDfl

/-- The wait status the parent shell observes when the output sink closes
while the process is writing to it. Under `SIG_DFL` the write delivers
SIGPIPE (signal 13) and the default action terminates the process by
signal, observed as status 128 + 13 = 141; only under the Python default
disposition would the write raise `BrokenPipeError` and reach the handler
in `main` that returns 0. -/
def broken_pipe_wait_status : SigpipeDisposition → Nat
  | SigpipeDisposition.sigDfl => 128 + 13
  | SigpipeDisposition.pythonDefault =>
      main_exit (Except.error PipelineError.brokenPipe)

/-- A relative path escapes the extraction root when it is absolute or its
first component, after normalization, is a parent-directory segment. -/
def relEscapesRoot (r : String) : Bool :=
  isabs r || r = ".." || startsWithStr r "../"

/-! ## Basic string and list lemmas -/

theorem data_mk (l : List Char) : (String.mk l).data = l := rfl

theorem strLength_data (s : String) : s.length = s.data.length := rfl

theorem strLength_append (a b : String) : (a ++ b).length = a.length + b.length := by
  rw [strLength_data, strLength_data, strLength_data, String.data_append, List.length_append]

theorem strAppend_left_cancel {a b c : String} (h : a ++ b = a ++ c) : b = c := by
  apply String.ext
  have h2 := congrArg String.data h
  rw [String.data_append, String.data_append] at h2
  exact List.append_cancel_left h2

theorem strAppend_right_cancel {a b c : String} (h : a ++ c = b ++ c) : a = b := by
  apply String.ext
  have h2 := congrArg String.data h
  rw [String.data_append, String.data_append] at h2
  exact List.append_cancel_right h2

theorem takeWhile_append_stop (p : Char → Bool) (c : Char) (hc : p c = false)
    (l1 l2 : List Char) :
    List.takeWhile p (l1 ++ c :: l2) = List.takeWhile p l1 := by
  induction l1 with
  | nil => simp [List.takeWhile_cons, hc]
  | cons a l ih =>
      by_cases ha : p a
      · simp [List.takeWhile_cons, ha, ih]
      · simp [List.takeWhile_cons, ha]

theorem length_takeWhile_le (p : Char → Bool) (l : List Char) :
    (List.takeWhile p l).length ≤ l.length := by
  induction l with
  | nil => simp
  | cons a t ih =>
      by_cases h : p a
      · simp only [List.takeWhile_cons, h, if_true, List.length_cons]
        omega
      · simp [List.takeWhile_cons, h]

/-! ## Pipeline helper lemmas -/

theorem sortResults_perm (l : List ConvertResult) : (sortResults l).Perm l :=
  List.perm_insertionSort leName l

theorem sortResults_length (l : List ConvertResult) : (sortResults l).length = l.length :=
  (sortResults_perm l).length_eq

theorem sortResults_mem {a : ConvertResult} {l : List ConvertResult} :
    a ∈ sortResults l ↔ a ∈ l :=
  (sortResults_perm l).mem_iff

theorem sortResults_sorted (l : List ConvertResult) : (sortResults l).Sorted leName :=
  List.sorted_insertionSort leName l

theorem runGenerator_value_map (tbs : List (FileTask × ConvBehavior)) :
    runGenerator (tbs.map (fun tb => WorkerBehavior.value (convert_task_isolated tb.1 tb.2))) =
      tbs.map (fun tb => convert_task_isolated tb.1 tb.2) := by
  induction tbs with
  | nil => rfl
  | cons tb rest ih => simp [runGenerator, ih]

theorem phase_transform_conv_eq (tbs : List (FileTask × ConvBehavior)) :
    phase_transform_conv tbs =
      sortResults (tbs.map (fun tb => convert_task_isolated tb.1 tb.2)) := by
  unfold phase_transform_conv phase_transform
  exact congrArg sortResults (runGenerator_value_map tbs)

theorem phase_transform_conv_length (tbs : List (FileTask × ConvBehavior)) :
    (phase_transform_conv tbs).length = tbs.length := by
  rw [phase_transform_conv_eq, sortResults_length, List.length_map]

theorem mem_phase_transform_conv {tbs : List (FileTask × ConvBehavior)}
    {tb : FileTask × ConvBehavior} (h : tb ∈ tbs) :
    convert_task_isolated tb.1 tb.2 ∈ phase_transform_conv tbs := by
  rw [phase_transform_conv_eq, sortResults_mem]
  exact List.mem_map_of_mem _ h

theorem pyStrip_empty : pyStrip "" = "" := rfl

/-! ## Claim C1: extraction-root containment of the Archive Reader -/

/-- C1: the validator and the extraction destination evaluated at the
archive entry name `a/../../evil`. The claim states that an entry whose
name, after normalization, resolves above the extraction root yields no
task and no write outside the scratch root; the code checks
`name.startswith("..")` on the raw name only, so this name passes
`is_valid_member`, normalizes to `../evil`, and the extraction destination
`work_dir / normpath(name)` (here with scratch root `w`) resolves outside
the scratch root. The spec names this check a security boundary, so the
code, not the claim, is wrong. -/
theorem c1_traversal_escape :
    is_valid_member "a/../../evil" = true ∧
    normpath "a/../../evil" = "../evil" ∧
    relEscapesRoot (normpath "a/../../evil") = true ∧
    task_input_path "w" "a/../../evil" = "w/../evil" := by
  decide

/-! ## Claim C3: skip and success behaviour of the worker -/

/-- C3 counterexample: on empty extracted text the worker returns Skipped
with reason `No convertible text content` (capital N), not the claimed
reason string `no convertible text content`. -/
theorem c3_counterexample :
    convert_task_isolated ⟨"w/a.pdf", "a.pdf", 0⟩ (ConvBehavior.returnsText "") =
      ConvertResult.skipped "a.pdf" "No convertible text content" ∧
    convert_task_isolated ⟨"w/a.pdf", "a.pdf", 0⟩ (ConvBehavior.returnsText "") ≠
      ConvertResult.skipped "a.pdf" "no convertible text content" := by
  decide

/-- C3 amended: empty or whitespace-only extracted text yields Skipped with
reason `No convertible text content`; text whose strip is non-empty yields
Success carrying exactly that text. -/
theorem c3_skip_or_success (t : FileTask) (s : String) :
    ((s = "" ∨ pyStrip s = "") →
      convert_task_isolated t (ConvBehavior.returnsText s) =
        ConvertResult.skipped t.original_name "No convertible text content") ∧
    (pyStrip s ≠ "" →
      convert_task_isolated t (ConvBehavior.returnsText s) =
        ConvertResult.success t.original_name s t.mtime) := by
  constructor
  · intro h
    have hcond : ¬ (s ≠ "" ∧ pyStrip s ≠ "") := by
      rcases h with h | h <;> simp [h]
    simp [convert_task_isolated, convert_body, hcond]
  · intro h
    have hs : s ≠ "" := by
      intro he
      rw [he, pyStrip_empty] at h
      exact h rfl
    simp [convert_task_isolated, convert_body, hs, h]

/-- C3 witness: the amended theorem applied at concrete inputs, once with
whitespace-only text and once with non-blank text. -/
theorem c3_skip_or_success_witness :
    convert_task_isolated ⟨"w/a.pdf", "a.pdf", 5⟩ (ConvBehavior.returnsText " \t ") =
      ConvertResult.skipped "a.pdf" "No convertible text content" ∧
    convert_task_isolated ⟨"w/a.pdf", "a.pdf", 5⟩ (ConvBehavior.returnsText "hi") =
      ConvertResult.success "a.pdf" "hi" 5 :=
  ⟨(c3_skip_or_success ⟨"w/a.pdf", "a.pdf", 5⟩ " \t ").1 (Or.inr (by decide)),
   (c3_skip_or_success ⟨"w/a.pdf", "a.pdf", 5⟩ "hi").2 (by decide)⟩

/-! ## Claim C4: shape of the Failed error description -/

set_option maxRecDepth 4000 in
/-- C4 counterexample: the 200-character truncation applies only to the
exception message, and the handler then prepends the exception type name
and a colon, so the full error description can exceed 200 characters: an
exception of type ValueError with a 200-character message yields an error
description of 212 characters. -/
theorem c4_counterexample :
    convert_task_isolated ⟨"w/a.pdf", "a.pdf", 0⟩
        (ConvBehavior.raisesExc false "ValueError" (String.mk (List.replicate 200 'a'))) =
      ConvertResult.failed "a.pdf" ("ValueError: " ++ String.mk (List.replicate 200 'a')) ∧
    200 < ("ValueError: " ++ String.mk (List.replicate 200 'a')).length := by
  decide

/-- C4 amended: a capability exception that is an instance of
`TimeoutError` (for example a socket timeout in the enrichment call) is
caught by the first handler and yields Failed with the fixed error
`Timeout (180s)`; any other exception with type name `ename` (a Python
identifier, hence newline-free) and message `emsg` yields a Failed outcome
whose error is `ename ++ ": " ++` the first line of `emsg` truncated to
200 characters; that error contains no newline and its length is at most
the type-name length plus 202 — not at most 200, as the counterexample
shows. -/
theorem c4_error_shape (t : FileTask) (ename emsg : String)
    (h : '\n' ∉ ename.data) :
    convert_task_isolated t (ConvBehavior.raisesExc true ename emsg) =
      ConvertResult.failed t.original_name "Timeout (180s)" ∧
    convert_task_isolated t (ConvBehavior.raisesExc false ename emsg) =
      ConvertResult.failed t.original_name (excErrorMsg ename emsg) ∧
    '\n' ∉ (excErrorMsg ename emsg).data ∧
    (excErrorMsg ename emsg).length ≤ ename.length + 202 := by
  refine ⟨rfl, rfl, ?_, ?_⟩
  · intro hmem
    rw [excErrorMsg, String.data_append, String.data_append] at hmem
    rcases List.mem_append.mp hmem with hmem | hmem
    · rcases List.mem_append.mp hmem with hmem | hmem
      · exact h hmem
      · exact absurd hmem (by decide)
    · rw [truncate200, data_mk, firstLine, data_mk] at hmem
      have h1 := List.mem_of_mem_take hmem
      have h2 := List.mem_takeWhile_imp h1
      simp at h2
  · rw [excErrorMsg, strLength_append, strLength_append]
    have h1 : (truncate200 (firstLine emsg)).length ≤ 200 := by
      rw [truncate200, strLength_data, data_mk]
      exact List.length_take_le 200 _
    have h2 : (": " : String).length = 2 := by decide
    omega

/-- C4 witness: the amended theorem applied to a ValueError whose message
has a second line (and, in the first conjunct, to a timeout-class
exception with the same message). -/
theorem c4_error_shape_witness :
    convert_task_isolated ⟨"w/a.pdf", "a.pdf", 0⟩
        (ConvBehavior.raisesExc true "ValueError" "boom\nsecond line") =
      ConvertResult.failed "a.pdf" "Timeout (180s)" ∧
    convert_task_isolated ⟨"w/a.pdf", "a.pdf", 0⟩
        (ConvBehavior.raisesExc false "ValueError" "boom\nsecond line") =
      ConvertResult.failed "a.pdf" (excErrorMsg "ValueError" "boom\nsecond line") ∧
    '\n' ∉ (excErrorMsg "ValueError" "boom\nsecond line").data ∧
    (excErrorMsg "ValueError" "boom\nsecond line").length ≤
      ("ValueError" : String).length + 202 :=
  c4_error_shape ⟨"w/a.pdf", "a.pdf", 0⟩ "ValueError" "boom\nsecond line" (by decide)

/-! ## Claim C10: totality of the worker over capability behaviours -/

/-- C10: for every task and every behaviour of the conversion capability,
`convert_task_isolated` returns exactly one `ConvertResult` carrying the
task's original name — returned text yields Success with that text or the
fixed Skipped outcome, and every exception or timeout is caught by the two
handlers and becomes a Failed outcome; no `PyExc` leaves the function. -/
theorem c10_worker_total (t : FileTask) (b : ConvBehavior) :
    (∃ text, b = ConvBehavior.returnsText text ∧
      convert_task_isolated t b =
        ConvertResult.success t.original_name text t.mtime) ∨
    convert_task_isolated t b =
      ConvertResult.skipped t.original_name "No convertible text content" ∨
    (∃ e, convert_task_isolated t b = ConvertResult.failed t.original_name e) := by
  cases b with
  | returnsText s =>
      by_cases hc : s ≠ "" ∧ pyStrip s ≠ ""
      · exact Or.inl ⟨s, rfl, by simp [convert_task_isolated, convert_body, hc.1, hc.2]⟩
      · refine Or.inr (Or.inl ?_)
        simp only [convert_task_isolated, convert_body, if_neg hc]
  | raisesExc isTO en em =>
      cases isTO with
      | true => exact Or.inr (Or.inr ⟨"Timeout (180s)", rfl⟩)
      | false => exact Or.inr (Or.inr ⟨excErrorMsg en em, rfl⟩)
  | timesOut => exact Or.inr (Or.inr ⟨"Timeout (180s)", rfl⟩)

/-! ## Claim C2: one outcome per task -/

/-- C2 counterexample: a single task whose worker process terminates
abnormally makes the backend raise while the generator is consumed; the
surrounding handler keeps the partial result list, so `phase_transform`
returns no outcome for that task instead of a Failed outcome — the outcome
list is shorter than the task list. -/
theorem c2_counterexample :
    (phase_transform [WorkerBehavior.terminatedAbnormally]).length ≠
      ([WorkerBehavior.terminatedAbnormally] : List WorkerBehavior).length := by
  decide

/-- C2 amended: whenever every worker function returns (which covers
conversion errors and timeouts, both converted to Failed inside
`convert_task_isolated`, but not an abnormal termination of the worker
process itself), `phase_transform` yields exactly one outcome per task. -/
theorem c2_outcomes_per_task (tbs : List (FileTask × ConvBehavior)) :
    (phase_transform_conv tbs).length = tbs.length :=
  phase_transform_conv_length tbs

/-! ## Claim C5: timeout yields Failed without aborting the run -/

/-- C5: a task whose conversion exceeds the 180 second budget contributes
the outcome Failed with error `Timeout (180s)`, and the run still yields
one outcome per task. -/
theorem c5_timeout (tbs : List (FileTask × ConvBehavior)) (t : FileTask)
    (h : (t, ConvBehavior.timesOut) ∈ tbs) :
    ConvertResult.failed t.original_name "Timeout (180s)" ∈ phase_transform_conv tbs ∧
    (phase_transform_conv tbs).length = tbs.length :=
  ⟨mem_phase_transform_conv h, phase_transform_conv_length tbs⟩

/-- C5 witness: a two-task run where the second task times out. -/
theorem c5_timeout_witness :
    ConvertResult.failed "b.pdf" "Timeout (180s)" ∈
      phase_transform_conv
        [(⟨"w/a.pdf", "a.pdf", 3⟩, ConvBehavior.returnsText "hi"),
         (⟨"w/b.pdf", "b.pdf", 4⟩, ConvBehavior.timesOut)] ∧
    (phase_transform_conv
        [(⟨"w/a.pdf", "a.pdf", 3⟩, ConvBehavior.returnsText "hi"),
         (⟨"w/b.pdf", "b.pdf", 4⟩, ConvBehavior.timesOut)]).length = 2 :=
  c5_timeout _ ⟨"w/b.pdf", "b.pdf", 4⟩ (by decide)

/-! ## Claim C6: exit codes -/

/-- C6 counterexample: `main` installs `SIG_DFL` for SIGPIPE before doing
anything else, so when the output sink closes early while the pipeline is
writing, the process is terminated by the signal and the shell observes
wait status 141, not a clean zero exit; the `except BrokenPipeError`
handler that would return 0 is unreachable for writes to the closed
standard output. -/
theorem c6_counterexample :
    broken_pipe_wait_status sigpipe_disposition = 141 ∧ (141 : Nat) ≠ 0 := by
  decide

/-- C6 amended: a run over any task set completes normally with exit code
0 — per-file failures and skips are captured as outcomes, never
exceptions — but an output sink that closes early terminates the process
via the default SIGPIPE action (wait status 141, no traceback), not with
exit code 0; only an operator interrupt (130) or another structural
failure (1) produces the other non-zero codes. -/
theorem c6_exit_codes (tbs : List (FileTask × ConvBehavior)) :
    main_exit (run_pipeline tbs) = 0 ∧
    broken_pipe_wait_status sigpipe_disposition = 141 :=
  ⟨rfl, rfl⟩

/-! ## Claim C8: deterministic output ordering -/

/-- The sort key ordering strengthened with distinctness of the keys; it is
antisymmetric, which the sort key ordering alone is not. -/
def ltNeName (a b : ConvertResult) : Prop :=
  leName a b ∧ a.original_name ≠ b.original_name

instance : IsAntisymm ConvertResult ltNeName :=
  ⟨fun _ _ h1 h2 =>
    absurd (String.ext (lexLeChars_antisymm h1.1 h2.1)) h1.2⟩

theorem sortResults_eq_of_perm {l1 l2 : List ConvertResult} (hp : l1.Perm l2)
    (hnd : l1.Pairwise (fun a b => a.original_name ≠ b.original_name)) :
    sortResults l1 = sortResults l2 := by
  have hsym : ∀ {x y : ConvertResult},
      x.original_name ≠ y.original_name → y.original_name ≠ x.original_name :=
    fun h => Ne.symm h
  have hnd1 : (sortResults l1).Pairwise (fun a b => a.original_name ≠ b.original_name) :=
    (List.Perm.pairwise_iff hsym (sortResults_perm l1)).mpr hnd
  have hnd2 : (sortResults l2).Pairwise (fun a b => a.original_name ≠ b.original_name) :=
    (List.Perm.pairwise_iff hsym ((sortResults_perm l2).trans hp.symm)).mpr hnd
  have hlt1 : (sortResults l1).Sorted ltNeName := (sortResults_sorted l1).and hnd1
  have hlt2 : (sortResults l2).Sorted ltNeName := (sortResults_sorted l2).and hnd2
  exact List.eq_of_perm_of_sorted
    ((sortResults_perm l1).trans (hp.trans (sortResults_perm l2).symm)) hlt1 hlt2

/-- C8 counterexample: two tar members may carry the same logical name, and
then two Success outcomes share one `original_name`; the sort is stable, so
two arrival permutations of the same outcome multiset produce different
outbound entry sequences. -/
theorem c8_counterexample :
    ([ConvertResult.success "a" "X" 1, ConvertResult.success "a" "Y" 2] :
        List ConvertResult).Perm
      [ConvertResult.success "a" "Y" 2, ConvertResult.success "a" "X" 1] ∧
    phase_emit (sortResults
        [ConvertResult.success "a" "X" 1, ConvertResult.success "a" "Y" 2]) ≠
      phase_emit (sortResults
        [ConvertResult.success "a" "Y" 2, ConvertResult.success "a" "X" 1]) :=
  ⟨List.Perm.swap _ _ _, by decide⟩

/-- C8 amended: the aggregated outcome list is always sorted by original
name, and when the outcomes carry pairwise-distinct original names (one
archive member per logical name) any two arrival permutations of the same
outcome multiset yield the same sorted list, hence identical outbound entry
sequences. -/
theorem c8_sorted_deterministic (l1 l2 : List ConvertResult) :
    (sortResults l1).Sorted leName ∧
    (l1.Perm l2 → l1.Pairwise (fun a b => a.original_name ≠ b.original_name) →
      sortResults l1 = sortResults l2 ∧
      phase_emit (sortResults l1) = phase_emit (sortResults l2)) := by
  refine ⟨sortResults_sorted l1, fun hp hnd => ?_⟩
  have he := sortResults_eq_of_perm hp hnd
  exact ⟨he, congrArg phase_emit he⟩

/-- C8 witness: the amended theorem applied to two arrival orders of two
outcomes with distinct names. -/
theorem c8_sorted_deterministic_witness :
    sortResults [ConvertResult.success "b" "Y" 2, ConvertResult.success "a" "X" 1] =
      sortResults [ConvertResult.success "a" "X" 1, ConvertResult.success "b" "Y" 2] ∧
    phase_emit (sortResults
        [ConvertResult.success "b" "Y" 2, ConvertResult.success "a" "X" 1]) =
      phase_emit (sortResults
        [ConvertResult.success "a" "X" 1, ConvertResult.success "b" "Y" 2]) :=
  (c8_sorted_deterministic
      [ConvertResult.success "b" "Y" 2, ConvertResult.success "a" "X" 1]
      [ConvertResult.success "a" "X" 1, ConvertResult.success "b" "Y" 2]).2
    (List.Perm.swap _ _ _) (by decide)

/-! ## Claim C9: shape of outbound entries -/

theorem phase_emit_mem {l : List ConvertResult} {e : OutEntry} (h : e ∈ phase_emit l) :
    ∃ n c m, ConvertResult.success n c m ∈ l ∧
      e = { name := md_output_name n, content := c, mtime := m } := by
  induction l with
  | nil => simp [phase_emit] at h
  | cons r rest ih =>
      cases r with
      | success n c m =>
          rw [phase_emit] at h
          rcases List.mem_cons.mp h with he | hrest
          · exact ⟨n, c, m, List.mem_cons_self _ _, he⟩
          · obtain ⟨n2, c2, m2, hm, heq⟩ := ih hrest
            exact ⟨n2, c2, m2, List.mem_cons_of_mem _ hm, heq⟩
      | skipped n reason =>
          rw [phase_emit] at h
          obtain ⟨n2, c2, m2, hm, heq⟩ := ih h
          exact ⟨n2, c2, m2, List.mem_cons_of_mem _ hm, heq⟩
      | failed n err =>
          rw [phase_emit] at h
          obtain ⟨n2, c2, m2, hm, heq⟩ := ih h
          exact ⟨n2, c2, m2, List.mem_cons_of_mem _ hm, heq⟩

theorem success_of_convert {t : FileTask} {b : ConvBehavior} {n c : String} {m : Nat}
    (h : convert_task_isolated t b = ConvertResult.success n c m) :
    n = t.original_name ∧ m = t.mtime ∧ b = ConvBehavior.returnsText c := by
  cases b with
  | returnsText s =>
      by_cases hc : s ≠ "" ∧ pyStrip s ≠ ""
      · have he : convert_task_isolated t (ConvBehavior.returnsText s) =
            ConvertResult.success t.original_name s t.mtime := by
          simp [convert_task_isolated, convert_body, hc.1, hc.2]
        rw [he] at h
        injection h with h1 h2 h3
        exact ⟨h1.symm, h3.symm, by rw [h2]⟩
      · have he : convert_task_isolated t (ConvBehavior.returnsText s) =
            ConvertResult.skipped t.original_name "No convertible text content" := by
          simp only [convert_task_isolated, convert_body, if_neg hc]
        rw [he] at h
        exact absurd h (by simp)
  | raisesExc isTO en em =>
      cases isTO with
      | true => exact absurd h (by simp [convert_task_isolated, convert_body])
      | false => exact absurd h (by simp [convert_task_isolated, convert_body])
  | timesOut => exact absurd h (by simp [convert_task_isolated, convert_body])

/-- C9: every entry of the outbound archive comes from a task whose
conversion returned text, its name is the task's original name with the
extension replaced by `.md` (`md_output_name`), its modification time is
the task's original modification time copied verbatim, and its content is
the returned text; Skipped and Failed outcomes contribute no entry. -/
theorem c9_entry_shape (tbs : List (FileTask × ConvBehavior)) :
    (∀ e ∈ phase_emit (phase_transform_conv tbs),
      ∃ tb ∈ tbs, ∃ text,
        tb.2 = ConvBehavior.returnsText text ∧
        e = { name := md_output_name tb.1.original_name, content := text,
              mtime := tb.1.mtime }) ∧
    (∀ (n reason : String) (rest : List ConvertResult),
      phase_emit (ConvertResult.skipped n reason :: rest) = phase_emit rest) ∧
    (∀ (n err : String) (rest : List ConvertResult),
      phase_emit (ConvertResult.failed n err :: rest) = phase_emit rest) := by
  refine ⟨?_, fun n reason rest => rfl, fun n err rest => rfl⟩
  intro e he
  obtain ⟨n, c, m, hmem, heq⟩ := phase_emit_mem he
  rw [phase_transform_conv_eq, sortResults_mem] at hmem
  obtain ⟨tb, htb, hconv⟩ := List.mem_map.mp hmem
  obtain ⟨hn, hm, hb⟩ := success_of_convert hconv
  exact ⟨tb, htb, c, hb, by rw [heq, hn, hm]⟩

/-- C9 witness: the first part of the theorem applied to a one-task run
whose conversion returns the text `hi`. -/
theorem c9_entry_shape_witness :
    ∃ tb ∈ ([(⟨"w/a.pdf", "a.pdf", 7⟩, ConvBehavior.returnsText "hi")] :
        List (FileTask × ConvBehavior)), ∃ text,
      tb.2 = ConvBehavior.returnsText text ∧
      ({ name := "a.md", content := "hi", mtime := 7 } : OutEntry) =
        { name := md_output_name tb.1.original_name, content := text,
          mtime := tb.1.mtime } :=
  (c9_entry_shape [(⟨"w/a.pdf", "a.pdf", 7⟩, ConvBehavior.returnsText "hi")]).1
    ⟨"a.md", "hi", 7⟩ (by decide)

/-! ## Claim C7: per-task scratch path ownership -/

theorem pathlibSuffixLength_le (name : List Char) :
    pathlibSuffixLength name ≤ name.length := by
  have h := length_takeWhile_le (fun c => c ≠ '.') name.reverse
  rw [List.length_reverse] at h
  unfold pathlibSuffixLength
  split
  · omega
  split
  · omega
  split
  · omega
  · omega

theorem basenameData_length_le (l : List Char) : (basenameData l).length ≤ l.length := by
  unfold basenameData
  rw [List.length_reverse]
  have h := length_takeWhile_le (fun c => c ≠ '/') l.reverse
  rwa [List.length_reverse] at h

theorem basenameData_concat (w r : List Char) :
    basenameData (w ++ '/' :: r) = basenameData r := by
  unfold basenameData
  rw [List.reverse_append, List.reverse_cons, List.append_assoc, List.singleton_append,
    takeWhile_append_stop (fun c => decide (c ≠ '/')) '/' (by decide) r.reverse w.reverse]

theorem take_concat_sub {w r : List Char} {c : Char} {k : Nat} (hk : k ≤ r.length) :
    (w ++ c :: r).take (w.length + 1 + r.length - k) = w ++ c :: r.take (r.length - k) := by
  rw [List.take_append_eq_append_take, List.take_of_length_le (by omega)]
  congr 1
  have he : w.length + 1 + r.length - k - w.length = (r.length - k) + 1 := by omega
  rw [he, List.take_succ_cons]

theorem data_append_slash (w r : String) :
    (w ++ "/" ++ r).data = w.data ++ '/' :: r.data := by
  rw [String.data_append, String.data_append, List.append_assoc]
  rfl

theorem stripPathSuffix_concat (w r : String) :
    stripPathSuffix (w ++ "/" ++ r) = w ++ "/" ++ stripPathSuffix r := by
  have hk : pathlibSuffixLength (basenameData r.data) ≤ r.data.length :=
    le_trans (pathlibSuffixLength_le _) (basenameData_length_le _)
  apply String.ext
  rw [stripPathSuffix, stripPathSuffix]
  simp only [data_append_slash, data_mk]
  rw [basenameData_concat]
  have hlen : (w.data ++ '/' :: r.data).length = w.data.length + 1 + r.data.length := by
    rw [List.length_append, List.length_cons]
    omega
  rw [hlen]
  exact take_concat_sub hk

theorem task_output_path_eq (work n : String) :
    task_output_path work n =
      work ++ "/" ++ (stripPathSuffix (normpath n) ++ ".md.tmp") := by
  rw [task_output_path, with_suffix_md_tmp, task_input_path, stripPathSuffix_concat,
    String.append_assoc]

/-- C7 counterexample: two distinct original logical names, both accepted
by the validator, whose workers derive the same scratch output path —
`x.pdf` and `x.doc` both write `w/x.md.tmp` — so task ownership of scratch
paths is not disjoint for every pair of distinct names. -/
theorem c7_counterexample :
    ("x.pdf" : String) ≠ "x.doc" ∧
    is_valid_member "x.pdf" = true ∧
    is_valid_member "x.doc" = true ∧
    task_output_path "w" "x.pdf" = task_output_path "w" "x.doc" := by
  decide

/-- C7 amended: two tasks own disjoint scratch paths whenever the
normalized names have distinct stems (path with the final extension
removed) and neither normalized name itself has the shape of a worker
output path (a stem followed by `.md.tmp`); distinct original names alone
do not suffice, as tasks named `x.pdf` and `x.doc` write the same output
path, and a task named `a.md.tmp` reads the path the task named `a.pdf`
writes. -/
theorem c7_disjoint_paths (work n1 n2 : String)
    (h1 : stripPathSuffix (normpath n1) ≠ stripPathSuffix (normpath n2))
    (h2 : ∀ x : String, normpath n1 ≠ x ++ ".md.tmp")
    (h3 : ∀ x : String, normpath n2 ≠ x ++ ".md.tmp") :
    task_input_path work n1 ≠ task_input_path work n2 ∧
    task_output_path work n1 ≠ task_output_path work n2 ∧
    task_input_path work n1 ≠ task_output_path work n2 ∧
    task_input_path work n2 ≠ task_output_path work n1 := by
  have hne : normpath n1 ≠ normpath n2 := fun h => h1 (by rw [h])
  refine ⟨?_, ?_, ?_, ?_⟩
  · intro h
    rw [task_input_path, task_input_path] at h
    exact hne (strAppend_left_cancel h)
  · intro h
    rw [task_output_path_eq, task_output_path_eq] at h
    exact h1 (strAppend_right_cancel (strAppend_left_cancel h))
  · intro h
    rw [task_input_path, task_output_path_eq] at h
    exact h2 _ (strAppend_left_cancel h)
  · intro h
    rw [task_input_path, task_output_path_eq] at h
    exact h3 _ (strAppend_left_cancel h)

/-- C7 witness: the amended theorem applied to the names `a.pdf` and
`b.pdf`, whose four scratch paths are pairwise distinct. -/
theorem c7_disjoint_paths_witness :
    task_input_path "w" "a.pdf" ≠ task_input_path "w" "b.pdf" ∧
    task_output_path "w" "a.pdf" ≠ task_output_path "w" "b.pdf" ∧
    task_input_path "w" "a.pdf" ≠ task_output_path "w" "b.pdf" ∧
    task_input_path "w" "b.pdf" ≠ task_output_path "w" "a.pdf" :=
  c7_disjoint_paths "w" "a.pdf" "b.pdf" (by decide)
    (fun x h => by
      have hl := congrArg String.length h
      rw [strLength_append] at hl
      have h5 : (normpath "a.pdf").length = 5 := by decide
      have h7 : (".md.tmp" : String).length = 7 := by decide
      omega)
    (fun x h => by
      have hl := congrArg String.length h
      rw [strLength_append] at hl
      have h5 : (normpath "b.pdf").length = 5 := by decide
      have h7 : (".md.tmp" : String).length = 7 := by decide
      omega)
